import Mathlib

/-!
Verification development for the stateful session service
(`6_StatefulService/app/service.py`).

The service keeps all durable state on a volume:
  * a sessions directory holding one JSON file per session, named
    `<sid>.json`, written atomically via a colocated `<sid>.tmp` file
    followed by a rename;
  * an append-only event log file `events.jsonl`, one JSON object per line;
  * a counters file `stats.json`, also written via tmp-file-plus-rename.

The embedding below models the volume as explicit data: the sessions
directory is an association list from file name to file content, the event
log is an optional list of entries (`none` meaning the file does not
exist), and the counters file is an optional record together with an
optional tmp-file slot.  Time stamps are modelled as natural numbers,
session payloads as uninterpreted values with a distinguished
empty-object default, and the per-request container identifier is passed
to each operation explicitly.
-/

namespace SessionService

/-- Session payloads (the `data` field) are opaque JSON values that the
service never inspects: it only stores them wholesale and defaults the
field to the empty JSON object when the request body omits it
(`body.get("data", \x7b\x7d)`).  We therefore model a payload as an
uninterpreted value with a distinguished empty-object default. -/
inductive Payload where
  | emptyObj : Payload
  | other (raw : String) : Payload
deriving DecidableEq, Repr

/-- A session record, mirroring the dictionary built in `create_session`:
`id`, `name`, `data`, `created_at`, `last_active`, `access_count`.
Time stamps (strftime strings in the source) are modelled as naturals. -/
structure Session where
  id : String
  name : String
  data : Payload
  created_at : Nat
  last_active : Nat
  access_count : Nat
deriving DecidableEq, Repr

/-- The counters record stored in `stats.json` (see `_load_stats`). -/
structure Stats where
  startup_count : Nat
  crash_count : Nat
  total_sessions : Nat
  total_requests : Nat
deriving DecidableEq, Repr

/-- The five event kinds the service writes to the log. -/
inductive EventKind where
  | startup
  | session_created
  | session_updated
  | session_deleted
  | crash_triggered
deriving DecidableEq, Repr

/-- One line of `events.jsonl`, as assembled by `_log_event`: time stamp,
event kind, container identifier, plus the optional extra fields each call
site supplies (`session_id`, `name`, `startup_count`, `crash_count`).
The numeric epoch and the formatted string carry the same instant, so a
single `ts` field models both. -/
structure Event where
  ts : Nat
  kind : EventKind
  container : String
  session_id : Option String
  name : Option String
  startup_count : Option Nat
  crash_count : Option Nat
deriving DecidableEq, Repr

/-- Content of a file in the sessions directory: either a completely
serialized value, or truncated bytes left behind by a failed write. -/
inductive FileData (α : Type) where
  | complete (val : α) : FileData α
  | corrupt (raw : String) : FileData α
deriving DecidableEq, Repr

/-- A directory: an association list from file name to file content. -/
abbrev Dir (α : Type) : Type := List (String × FileData α)

/-- Reading a file: the first entry with the given name, if any. -/
def fsRead {α : Type} (d : Dir α) (f : String) : Option (FileData α) :=
  (d.find? (fun e => e.1 == f)).map (·.2)

/-- Deleting a file (`Path.unlink`). -/
def fsErase {α : Type} (d : Dir α) (f : String) : Dir α :=
  d.filter (fun e => !(e.1 == f))

/-- Writing a file: replaces any existing entry with the same name. -/
def fsWrite {α : Type} (d : Dir α) (f : String) (c : FileData α) : Dir α :=
  (f, c) :: fsErase d f

/-- Renaming a file (`Path.rename`): atomically makes the destination name
resolve to the source content, overwriting the destination and removing
the source name.  A rename of a nonexistent source leaves the directory
unchanged. -/
def fsRename {α : Type} (d : Dir α) (src dst : String) : Dir α :=
  match fsRead d src with
  | none => d
  | some c => fsWrite (fsErase d src) dst c

/-- The whole persistent volume: sessions directory, event log file and
counters file (with its colocated tmp slot, `stats.tmp`). -/
structure Volume where
  sessionsDir : Dir Session
  events : Option (List Event)
  stats : Option Stats
  statsTmp : Option (FileData Stats)
deriving DecidableEq, Repr

/-- The volume before the service has ever written anything. -/
def emptyVolume : Volume :=
  { sessionsDir := [], events := none, stats := none, statsTmp := none }

/-- `_load_stats`: read `stats.json`, defaulting every counter to zero
when the file does not exist. -/
def load_stats (v : Volume) : Stats :=
  match v.stats with
  | some s => s
  | none => { startup_count := 0, crash_count := 0,
              total_sessions := 0, total_requests := 0 }

/-- First half of `_save_stats`: `tmp.write_text(json.dumps(s))` writes the
serialized record to `stats.tmp`; the destination is untouched. -/
def write_stats_tmp (v : Volume) (s : Stats) : Volume :=
  { v with statsTmp := some (.complete s) }

/-- `_save_stats`: write `stats.tmp`, then `tmp.rename(STATS_FILE)`; after
the rename the tmp name is gone and `stats.json` holds the new record. -/
def save_stats (v : Volume) (s : Stats) : Volume :=
  { write_stats_tmp v s with statsTmp := none, stats := some s }

/-- The three volume states a `_save_stats` call passes through: before the
call, after the tmp write, after the rename. -/
def save_stats_steps (v : Volume) (s : Stats) : List Volume :=
  [v, write_stats_tmp v s, save_stats v s]

/-- A `_save_stats` call whose temporary-file write fails partway
(e.g. disk full): `stats.tmp` may hold truncated bytes and the rename is
never performed, so `stats.json` is untouched. -/
def save_stats_tmp_failed (v : Volume) (raw : String) : Volume :=
  { v with statsTmp := some (.corrupt raw) }

/-- `_log_event`: append one entry to `events.jsonl`, creating the file
when it does not exist (`open(EVENTS_FILE, "a")`). -/
def log_event (v : Volume) (e : Event) : Volume :=
  { v with events := some ((v.events.getD []) ++ [e]) }

/-- `_session_path`: the file holding session `sid` is named `sid ++ ".json"`
inside the sessions directory. -/
def session_path (sid : String) : String :=
  sid ++ ".json"

/-- The temporary path used by `_save_session`: `p.with_suffix(".tmp")`
replaces the trailing `.json` of the destination, giving `sid ++ ".tmp"`. -/
def session_tmp_path (sid : String) : String :=
  sid ++ ".tmp"

/-- Errors an operation can signal: `abort(404)` when a record is absent,
or a deserialization failure on corrupt content. -/
inductive SvcErr where
  | notFound
  | corrupt
deriving DecidableEq, Repr

deriving instance DecidableEq for Except

/-- `_load_session`: 404 when the file does not exist, a deserialization
error when its content is truncated, otherwise the parsed record. -/
def load_session (v : Volume) (sid : String) : Except SvcErr Session :=
  match fsRead v.sessionsDir (session_path sid) with
  | none => .error .notFound
  | some (.corrupt _) => .error .corrupt
  | some (.complete s) => .ok s

/-- First half of `_save_session`: `tmp.write_text(json.dumps(sess))`
serializes the record to the colocated tmp path; the destination is
untouched. -/
def write_session_tmp (v : Volume) (sess : Session) : Volume :=
  { v with sessionsDir :=
      fsWrite v.sessionsDir (session_tmp_path sess.id) (.complete sess) }

/-- `_save_session`: write the tmp file, then `tmp.rename(p)` over the
destination `_session_path(sess["id"])`. -/
def save_session (v : Volume) (sess : Session) : Volume :=
  let d := fsWrite v.sessionsDir (session_tmp_path sess.id) (.complete sess)
  { v with sessionsDir := fsRename d (session_tmp_path sess.id) (session_path sess.id) }

/-- The three volume states a `_save_session` call passes through. -/
def save_session_steps (v : Volume) (sess : Session) : List Volume :=
  [v, write_session_tmp v sess, save_session v sess]

/-- A `_save_session` call whose temporary-file write fails partway: the
tmp path may hold truncated bytes, the rename never runs, and the
destination is untouched. -/
def save_session_tmp_failed (v : Volume) (sess : Session) (raw : String) : Volume :=
  { v with sessionsDir :=
      fsWrite v.sessionsDir (session_tmp_path sess.id) (.corrupt raw) }

/-- The module-level bootstrap block: load-or-initialize the counters,
increment `startup_count`, save, then log a `startup` event carrying the
new `startup_count` and the current `crash_count`. -/
def bootstrap (v : Volume) (container : String) (now : Nat) : Volume :=
  let s := load_stats v
  let s2 := { s with startup_count := s.startup_count + 1 }
  let v1 := save_stats v s2
  log_event v1
    { ts := now, kind := .startup, container := container,
      session_id := none, name := none,
      startup_count := some s2.startup_count,
      crash_count := some s2.crash_count }

/-- The `/crash` route: increment `crash_count`, save, log a
`crash_triggered` event, and only then `os._exit(1)`.  The returned volume
is the durable state at the instant the process dies. -/
def crash (v : Volume) (container : String) (now : Nat) : Volume :=
  let s := load_stats v
  let s2 := { s with crash_count := s.crash_count + 1 }
  let v1 := save_stats v s2
  log_event v1
    { ts := now, kind := .crash_triggered, container := container,
      session_id := none, name := none,
      startup_count := none, crash_count := some s2.crash_count }

/-- The record minted by `create_session` before it is saved: absent
`name` defaults to `"unnamed"`, absent `data` to the empty object, both
time stamps are the creation instant and the access counter starts at 0. -/
def new_session (sid : String) (now : Nat)
    (nameArg : Option String) (dataArg : Option Payload) : Session :=
  { id := sid, name := nameArg.getD "unnamed", data := dataArg.getD .emptyObj,
    created_at := now, last_active := now, access_count := 0 }

/-- `POST /sessions` (`create_session`): build the record, save it, log a
`session_created` event, then increment `total_sessions` in the counters
file.  The freshly minted uuid4 identifier is passed in as `sid`. -/
def create_session (v : Volume) (sid container : String) (now : Nat)
    (nameArg : Option String) (dataArg : Option Payload) : Volume × Session :=
  let sess := new_session sid now nameArg dataArg
  let v1 := save_session v sess
  let v2 := log_event v1
    { ts := now, kind := .session_created, container := container,
      session_id := some sid, name := some sess.name,
      startup_count := none, crash_count := none }
  let s := load_stats v2
  let v3 := save_stats v2 { s with total_sessions := s.total_sessions + 1 }
  (v3, sess)

/-- `GET /sessions/(sid)` (`get_session`): just `_load_session`. -/
def get_session (v : Volume) (sid : String) : Except SvcErr Session :=
  load_session v sid

/-- The record produced by `update_session` from the loaded one: replace
`name` and `data` only when supplied, then refresh `last_active` and bump
`access_count`. -/
def apply_update (sess : Session) (now : Nat)
    (nameArg : Option String) (dataArg : Option Payload) : Session :=
  let s1 := match nameArg with
    | some n => { sess with name := n }
    | none => sess
  let s2 := match dataArg with
    | some d => { s1 with data := d }
    | none => s1
  { s2 with last_active := now, access_count := s2.access_count + 1 }

/-- `PUT /sessions/(sid)` (`update_session`): load (404 when absent),
apply the partial update, save the record, then log a `session_updated`
event. -/
def update_session (v : Volume) (sid container : String) (now : Nat)
    (nameArg : Option String) (dataArg : Option Payload) :
    Volume × Except SvcErr Session :=
  match load_session v sid with
  | .error e => (v, .error e)
  | .ok sess =>
    let sess2 := apply_update sess now nameArg dataArg
    let v1 := save_session v sess2
    let v2 := log_event v1
      { ts := now, kind := .session_updated, container := container,
        session_id := some sid, name := none,
        startup_count := none, crash_count := none }
    (v2, .ok sess2)

/-- `DELETE /sessions/(sid)` (`delete_session`): load (404 when absent),
unlink the file, then log a `session_deleted` event. -/
def delete_session (v : Volume) (sid container : String) (now : Nat) :
    Volume × Except SvcErr Unit :=
  match load_session v sid with
  | .error e => (v, .error e)
  | .ok _ =>
    let v1 := { v with sessionsDir := fsErase v.sessionsDir (session_path sid) }
    let v2 := log_event v1
      { ts := now, kind := .session_deleted, container := container,
        session_id := some sid, name := none,
        startup_count := none, crash_count := none }
    (v2, .ok ())

/-- Boolean test that `sfx` is a suffix of `l`: compare `sfx` with the
last `sfx.length` elements of `l`. -/
def suffixCheck (sfx l : List Char) : Bool :=
  sfx == l.drop (l.length - sfx.length)

/-- Whether a file name matches the `*.json` glob used by `list_sessions`
and `/state`. -/
def isJsonName (f : String) : Bool :=
  suffixCheck (".json").data f.data

/-- Parse a list of directory entries in order
(`json.loads(p.read_text())` per file): the first truncated file makes
the whole listing fail. -/
def parse_all : List (String × FileData Session) → Except SvcErr (List Session)
  | [] => .ok []
  | e :: es =>
    match e.2 with
    | .complete s => (parse_all es).map (fun l => s :: l)
    | .corrupt _ => .error .corrupt

/-- `GET /sessions` (`list_sessions`): parse every `*.json` file in the
sessions directory, in sorted file-name order; a truncated file makes the
parse fail. -/
def list_sessions (v : Volume) : Except SvcErr (List Session) :=
  parse_all (List.insertionSort (fun a b => a.1 ≤ b.1)
    (v.sessionsDir.filter (fun e => isJsonName e.1)))

/-- Python slicing `l[k:]` for an arbitrary integer start index `k`:
a negative `k` counts from the end (clamped at the start of the list). -/
def pySliceFrom {α : Type} (l : List α) (k : Int) : List α :=
  l.drop (if k < 0 then ((l.length : Int) + k).toNat else k.toNat)

/-- `GET /events` (`list_events`): a missing log file yields the empty
list; otherwise parse all lines and return `events[-limit:]`. -/
def list_events (v : Volume) (limit : Int) : List Event :=
  match v.events with
  | none => []
  | some evs => pySliceFrom evs (-limit)

/-- `GET /events` with no `limit` query parameter: the limit defaults
to 50 (`request.args.get("limit", 50)`). -/
def list_events_default (v : Volume) : List Event :=
  list_events v 50

/-- One completed service operation, with all its request-level inputs:
the container identifier of the process instance handling it, the wall
clock instant, and for session operations the identifier and body. -/
inductive Op where
  | start (container : String) (now : Nat)
  | crashOp (container : String) (now : Nat)
  | create (sid container : String) (now : Nat)
      (nameArg : Option String) (dataArg : Option Payload)
  | update (sid container : String) (now : Nat)
      (nameArg : Option String) (dataArg : Option Payload)
  | delete (sid container : String) (now : Nat)
deriving DecidableEq, Repr

/-- The effect of one completed operation on the volume. -/
def step (v : Volume) : Op → Volume
  | .start c n => bootstrap v c n
  | .crashOp c n => crash v c n
  | .create sid c n na da => (create_session v sid c n na da).1
  | .update sid c n na da => (update_session v sid c n na da).1
  | .delete sid c n => (delete_session v sid c n).1

/-- Run a sequence of completed operations from the pristine volume. -/
def runOps (ops : List Op) : Volume :=
  ops.foldl step emptyVolume

/-- Whether a session record for `sid` exists on disk. -/
def hasSession (v : Volume) (sid : String) : Bool :=
  (fsRead v.sessionsDir (session_path sid)).isSome

/-- Number of process starts in an operation sequence. -/
def countStarts (ops : List Op) : Nat :=
  ops.countP (fun o => match o with | .start _ _ => true | _ => false)

/-- Number of triggered crashes in an operation sequence. -/
def countCrashes (ops : List Op) : Nat :=
  ops.countP (fun o => match o with | .crashOp _ _ => true | _ => false)

/-- Well-formedness of the sessions directory: every file in it is a
completely written session record stored under the file name derived from
its own identifier (so the stored `id` equals the file name minus the
`.json` extension, and no `.tmp` leftovers are present). -/
def DirInv (d : Dir Session) : Prop :=
  ∀ e ∈ d, ∃ s : Session, e = (session_path s.id, FileData.complete s)

/-- Whether an event is a `session_created` entry for `sid`. -/
def isCreatedFor (e : Event) (sid : String) : Bool :=
  e.kind == .session_created && e.session_id == some sid

/-- Whether an event is a `session_deleted` entry for `sid`. -/
def isDeletedFor (e : Event) (sid : String) : Bool :=
  e.kind == .session_deleted && e.session_id == some sid

/-- Whether an event mentions `sid` in a way that affects replay. -/
def isRelevantTo (e : Event) (sid : String) : Bool :=
  isCreatedFor e sid || isDeletedFor e sid

/-- Replay of the surviving event log: `sid` is alive when the most
recent created/deleted entry concerning it is a created one. -/
def aliveInLog (evs : List Event) (sid : String) : Bool :=
  match evs.reverse.find? (fun e => isRelevantTo e sid) with
  | some e => isCreatedFor e sid
  | none => false

/-- The reachability invariant: the sessions directory is well formed and
the set of records on disk agrees with the replay of the event log. -/
def Inv (v : Volume) : Prop :=
  DirInv v.sessionsDir ∧
    ∀ sid, hasSession v sid = aliveInLog (v.events.getD []) sid

/-! ### Helper lemmas about file names -/

theorem suffixCheck_append (a sfx : List Char) : suffixCheck sfx (a ++ sfx) = true := by
  simp [suffixCheck, List.length_append, Nat.add_sub_cancel, List.drop_left]

theorem suffixCheck_json_tmp (a : List Char) :
    suffixCheck (".json").data (a ++ (".tmp").data) = false := by
  by_contra h
  rw [Bool.not_eq_false, suffixCheck, beq_iff_eq] at h
  have hsfx : (".json").data <:+ (a ++ (".tmp").data) := h ▸ List.drop_suffix _ _
  obtain ⟨t, ht⟩ := hsfx
  have h1 := congrArg List.getLast? ht
  rw [List.getLast?_append, List.getLast?_append] at h1
  have hj : (".json").data.getLast? = some 'n' := rfl
  have htm : (".tmp").data.getLast? = some 'p' := rfl
  rw [hj, htm, Option.or_some, Option.or_some] at h1
  exact absurd h1 (by decide)

theorem isJsonName_session_path (sid : String) :
    isJsonName (session_path sid) = true := by
  have hd : (session_path sid).data = sid.data ++ (".json").data :=
    String.data_append sid ".json"
  rw [isJsonName, hd]
  exact suffixCheck_append _ _

theorem isJsonName_session_tmp_path (sid : String) :
    isJsonName (session_tmp_path sid) = false := by
  have hd : (session_tmp_path sid).data = sid.data ++ (".tmp").data :=
    String.data_append sid ".tmp"
  rw [isJsonName, hd]
  exact suffixCheck_json_tmp _

theorem session_path_ne_tmp_path (a b : String) :
    session_path a ≠ session_tmp_path b := by
  intro h
  have h1 : a.data ++ (".json").data = b.data ++ (".tmp").data := by
    have h0 := congrArg String.data h
    simpa [session_path, session_tmp_path, String.data_append] using h0
  have h2 := congrArg List.getLast? h1
  rw [List.getLast?_append, List.getLast?_append] at h2
  have hj : (".json").data.getLast? = some 'n' := rfl
  have htm : (".tmp").data.getLast? = some 'p' := rfl
  rw [hj, htm, Option.or_some, Option.or_some] at h2
  exact absurd h2 (by decide)

theorem session_path_inj {a b : String} (h : session_path a = session_path b) :
    a = b := by
  have h1 : a.data ++ (".json").data = b.data ++ (".json").data := by
    have h0 := congrArg String.data h
    simpa [session_path, String.data_append] using h0
  exact String.ext (List.append_inj' h1 rfl).1

/-! ### Helper lemmas about directories -/

theorem fsRead_fsWrite_self {α : Type} (d : Dir α) (f : String) (c : FileData α) :
    fsRead (fsWrite d f c) f = some c := by
  simp [fsRead, fsWrite, List.find?_cons]

theorem fsRead_fsErase_ne {α : Type} (d : Dir α) {f g : String} (h : g ≠ f) :
    fsRead (fsErase d f) g = fsRead d g := by
  unfold fsRead fsErase
  induction d with
  | nil => rfl
  | cons e d ih =>
    by_cases hf : e.1 = f
    · have hg : (f == g) = false := beq_eq_false_iff_ne.mpr (Ne.symm h)
      simpa [List.filter_cons, List.find?_cons, hf, hg] using ih
    · have hq : (e.1 == f) = false := beq_eq_false_iff_ne.mpr hf
      cases hg : (e.1 == g) with
      | true => simp [List.filter_cons, List.find?_cons, hq, hg]
      | false => simpa [List.filter_cons, List.find?_cons, hq, hg] using ih

theorem fsRead_fsErase_self {α : Type} (d : Dir α) (f : String) :
    fsRead (fsErase d f) f = none := by
  unfold fsRead fsErase
  induction d with
  | nil => rfl
  | cons e d ih =>
    by_cases hf : e.1 = f
    · simp [List.filter_cons, hf]
    · have hq : (e.1 == f) = false := beq_eq_false_iff_ne.mpr hf
      simp [List.filter_cons, List.find?_cons, hq]

theorem fsRead_fsWrite_ne {α : Type} (d : Dir α) {f g : String} (c : FileData α)
    (h : g ≠ f) : fsRead (fsWrite d f c) g = fsRead d g := by
  have hg : (f == g) = false := beq_eq_false_iff_ne.mpr (Ne.symm h)
  calc fsRead (fsWrite d f c) g
      = fsRead (fsErase d f) g := by
        simp [fsRead, fsWrite, List.find?_cons, hg]
    _ = fsRead d g := fsRead_fsErase_ne d h

theorem fsErase_fsWrite_self {α : Type} (d : Dir α) (f : String) (c : FileData α) :
    fsErase (fsWrite d f c) f = fsErase d f := by
  simp [fsErase, fsWrite, List.filter_filter]

theorem save_session_dir (v : Volume) (sess : Session) :
    (save_session v sess).sessionsDir =
      fsWrite (fsErase v.sessionsDir (session_tmp_path sess.id))
        (session_path sess.id) (.complete sess) := by
  simp [save_session, fsRename, fsRead_fsWrite_self, fsErase_fsWrite_self]

theorem fsRead_save_session_self (v : Volume) (sess : Session) :
    fsRead (save_session v sess).sessionsDir (session_path sess.id) =
      some (.complete sess) := by
  rw [save_session_dir]
  exact fsRead_fsWrite_self _ _ _

theorem mem_fsErase {α : Type} {d : Dir α} {f : String} {e : String × FileData α}
    (h : e ∈ fsErase d f) : e ∈ d :=
  List.mem_of_mem_filter h

theorem mem_fsWrite {α : Type} {d : Dir α} {f : String} {c : FileData α}
    {e : String × FileData α} (h : e ∈ fsWrite d f c) :
    e = (f, c) ∨ e ∈ d := by
  rcases List.mem_cons.mp h with h1 | h1
  · exact Or.inl h1
  · exact Or.inr (mem_fsErase h1)

/-! ### Claim C1: atomic record writes -/

/-- C1: every record write performed by the store (session record via
`_save_session`, counter record via `_save_stats`) first serializes the
value to a colocated temporary path and then renames it over the
destination, so at every state the write passes through, reading the
destination yields either the complete pre-write content or the complete
post-write value, never a truncated one; and when the temporary-file
write step fails, the destination content is unchanged. -/
theorem claim1_atomic_store_writes :
    (∀ (v : Volume) (sess : Session), ∀ w ∈ save_session_steps v sess,
        fsRead w.sessionsDir (session_path sess.id) =
            fsRead v.sessionsDir (session_path sess.id) ∨
          fsRead w.sessionsDir (session_path sess.id) =
            some (FileData.complete sess)) ∧
    (∀ (v : Volume) (sess : Session) (raw : String),
        fsRead (save_session_tmp_failed v sess raw).sessionsDir
            (session_path sess.id) =
          fsRead v.sessionsDir (session_path sess.id)) ∧
    (∀ (v : Volume) (s : Stats), ∀ w ∈ save_stats_steps v s,
        w.stats = v.stats ∨ w.stats = some s) ∧
    (∀ (v : Volume) (raw : String),
        (save_stats_tmp_failed v raw).stats = v.stats) := by
  refine ⟨?_, ?_, ?_, ?_⟩
  · intro v sess w hw
    simp only [save_session_steps, List.mem_cons, List.not_mem_nil, or_false] at hw
    rcases hw with rfl | rfl | rfl
    · exact Or.inl rfl
    · exact Or.inl (fsRead_fsWrite_ne _ _ (session_path_ne_tmp_path _ _))
    · exact Or.inr (fsRead_save_session_self v sess)
  · intro v sess raw
    exact fsRead_fsWrite_ne _ _ (session_path_ne_tmp_path _ _)
  · intro v s w hw
    simp only [save_stats_steps, List.mem_cons, List.not_mem_nil, or_false] at hw
    rcases hw with rfl | rfl | rfl
    · exact Or.inl rfl
    · exact Or.inl rfl
    · exact Or.inr rfl
  · intro v raw
    rfl

/-- Witness for C1: the mid-write state of a concrete session save leaves
the destination unchanged or already complete. -/
theorem claim1_atomic_store_writes_witness :
    fsRead (write_session_tmp emptyVolume ⟨"a", "n", Payload.emptyObj, 0, 0, 0⟩).sessionsDir
        (session_path (Session.id ⟨"a", "n", Payload.emptyObj, 0, 0, 0⟩)) =
      fsRead emptyVolume.sessionsDir
        (session_path (Session.id ⟨"a", "n", Payload.emptyObj, 0, 0, 0⟩)) ∨
    fsRead (write_session_tmp emptyVolume ⟨"a", "n", Payload.emptyObj, 0, 0, 0⟩).sessionsDir
        (session_path (Session.id ⟨"a", "n", Payload.emptyObj, 0, 0, 0⟩)) =
      some (FileData.complete ⟨"a", "n", Payload.emptyObj, 0, 0, 0⟩) :=
  claim1_atomic_store_writes.1 emptyVolume ⟨"a", "n", Payload.emptyObj, 0, 0, 0⟩
    (write_session_tmp emptyVolume ⟨"a", "n", Payload.emptyObj, 0, 0, 0⟩) (by decide)

/-! ### Claim C9: create defaults -/

/-- C9: `create_session` with an absent `name` stores the name
`"unnamed"`, and with an absent `data` stores the empty object; in both
cases the operation succeeds and the record is persisted. -/
theorem claim9_create_defaults :
    (∀ (v : Volume) (sid container : String) (now : Nat) (da : Option Payload),
        (create_session v sid container now none da).2.name = "unnamed" ∧
        fsRead (create_session v sid container now none da).1.sessionsDir
            (session_path sid) =
          some (FileData.complete (create_session v sid container now none da).2)) ∧
    (∀ (v : Volume) (sid container : String) (now : Nat) (na : Option String),
        (create_session v sid container now na none).2.data = Payload.emptyObj ∧
        fsRead (create_session v sid container now na none).1.sessionsDir
            (session_path sid) =
          some (FileData.complete (create_session v sid container now na none).2)) := by
  constructor
  · intro v sid container now da
    exact ⟨rfl, fsRead_save_session_self v (new_session sid now none da)⟩
  · intro v sid container now na
    exact ⟨rfl, fsRead_save_session_self v (new_session sid now na none)⟩

/-! ### Characterizations of the registry operations -/

theorem apply_update_id (sess : Session) (now : Nat) (na : Option String)
    (da : Option Payload) : (apply_update sess now na da).id = sess.id := by
  cases na <;> cases da <;> rfl

theorem update_session_ok (v : Volume) (sid container : String) (now : Nat)
    (sess : Session) (na : Option String) (da : Option Payload)
    (h : load_session v sid = .ok sess) :
    update_session v sid container now na da =
      (log_event (save_session v (apply_update sess now na da))
          ⟨now, .session_updated, container, some sid, none, none, none⟩,
        .ok (apply_update sess now na da)) := by
  simp [update_session, h]

theorem update_session_err (v : Volume) (sid container : String) (now : Nat)
    (err : SvcErr) (h : load_session v sid = .error err) :
    update_session v sid container now na da = (v, .error err) := by
  simp [update_session, h]

theorem delete_session_ok (v : Volume) (sid container : String) (now : Nat)
    (sess : Session) (h : load_session v sid = .ok sess) :
    delete_session v sid container now =
      (log_event { v with sessionsDir := fsErase v.sessionsDir (session_path sid) }
          ⟨now, .session_deleted, container, some sid, none, none, none⟩,
        .ok ()) := by
  simp [delete_session, h]

theorem delete_session_err (v : Volume) (sid container : String) (now : Nat)
    (err : SvcErr) (h : load_session v sid = .error err) :
    delete_session v sid container now = (v, .error err) := by
  simp [delete_session, h]

/-! ### Claim C4: partial update leaves unsupplied fields unchanged -/

/-- C4: updating an existing session with only a name leaves the stored
payload and creation time stamp unchanged, sets `last_active` to the
update instant and increments `access_count` by exactly one; supplying
only a payload symmetrically leaves the name unchanged.  The hypothesis
`hid` records the registry invariant that a record is stored under its
own identifier. -/
theorem claim4_update_partial_frame (v : Volume) (sid container : String)
    (now : Nat) (sess : Session)
    (h : load_session v sid = .ok sess) (hid : sess.id = sid) :
    (∀ n : String,
        (update_session v sid container now (some n) none).2 =
          Except.ok { sess with name := n, last_active := now, access_count := sess.access_count + 1 } ∧
        fsRead (update_session v sid container now (some n) none).1.sessionsDir
            (session_path sid) =
          some (FileData.complete { sess with name := n, last_active := now, access_count := sess.access_count + 1 })) ∧
    (∀ d : Payload,
        (update_session v sid container now none (some d)).2 =
          Except.ok { sess with data := d, last_active := now, access_count := sess.access_count + 1 } ∧
        fsRead (update_session v sid container now none (some d)).1.sessionsDir
            (session_path sid) =
          some (FileData.complete { sess with data := d, last_active := now, access_count := sess.access_count + 1 })) := by
  subst hid
  constructor
  · intro n
    rw [update_session_ok v sess.id container now sess (some n) none h]
    exact ⟨rfl, fsRead_save_session_self v _⟩
  · intro d
    rw [update_session_ok v sess.id container now sess none (some d) h]
    exact ⟨rfl, fsRead_save_session_self v _⟩

/-- Witness for C4 on a freshly created concrete session. -/
theorem claim4_update_partial_frame_witness :
    (update_session (create_session emptyVolume "a" "c" 0 (some "alpha") none).1
        "a" "c" 5 (some "beta") none).2 =
      Except.ok { id := "a", name := "beta", data := Payload.emptyObj, created_at := 0, last_active := 5, access_count := 1 } :=
  (((claim4_update_partial_frame
      (create_session emptyVolume "a" "c" 0 (some "alpha") none).1 "a" "c" 5
      ⟨"a", "alpha", Payload.emptyObj, 0, 0, 0⟩ (by decide) rfl).1) "beta").1

/-! ### Claim C5: creation mints a complete fresh record -/

/-- C5: `create_session` with a fresh identifier returns a session whose
identifier is the minted one (absent from the registry by `hfresh`, which
models uuid4 uniqueness), whose two time stamps both equal the creation
instant and whose access counter is zero; the record is persisted under
that identifier, exactly one `session_created` event is appended, and the
persisted `total_sessions` counter grows by exactly one. -/
theorem claim5_create_fresh (v : Volume) (sid container : String) (now : Nat)
    (na : Option String) (da : Option Payload)
    (_hfresh : hasSession v sid = false) :
    (create_session v sid container now na da).2.id = sid ∧
    (create_session v sid container now na da).2.created_at = now ∧
    (create_session v sid container now na da).2.last_active = now ∧
    (create_session v sid container now na da).2.access_count = 0 ∧
    fsRead (create_session v sid container now na da).1.sessionsDir
        (session_path sid) =
      some (FileData.complete (create_session v sid container now na da).2) ∧
    (create_session v sid container now na da).1.events =
      some ((v.events.getD []) ++
        [⟨now, EventKind.session_created, container, some sid,
          some (na.getD "unnamed"), none, none⟩]) ∧
    (load_stats (create_session v sid container now na da).1).total_sessions =
      (load_stats v).total_sessions + 1 :=
  ⟨rfl, rfl, rfl, rfl, fsRead_save_session_self v (new_session sid now na da),
    rfl, rfl⟩

/-- Witness for C5 at a concrete creation. -/
theorem claim5_create_fresh_witness :
    (create_session emptyVolume "a" "c" 3 none none).2.id = "a" :=
  (claim5_create_fresh emptyVolume "a" "c" 3 none none (by decide)).1

/-! ### Claim C6: delete removes the record permanently -/

/-- C6: deleting an existing session removes the backing record, so a
subsequent get signals NotFound, no file for the identifier remains, and
exactly one `session_deleted` event is appended; deleting an absent
identifier signals NotFound, removes nothing and appends no event. -/
theorem claim6_delete_permanent (v : Volume) (sid container : String) (now : Nat) :
    (∀ sess, load_session v sid = .ok sess →
        (delete_session v sid container now).2 = .ok () ∧
        get_session (delete_session v sid container now).1 sid =
          .error .notFound ∧
        fsRead (delete_session v sid container now).1.sessionsDir
          (session_path sid) = none ∧
        (delete_session v sid container now).1.events =
          some ((v.events.getD []) ++
            [⟨now, EventKind.session_deleted, container, some sid,
              none, none, none⟩])) ∧
    (∀ err, load_session v sid = .error err →
        delete_session v sid container now = (v, .error err)) := by
  constructor
  · intro sess h
    rw [delete_session_ok v sid container now sess h]
    refine ⟨rfl, ?_, ?_, rfl⟩
    · show load_session _ sid = _
      unfold load_session
      rw [show (log_event { v with sessionsDir := fsErase v.sessionsDir (session_path sid) }
            ⟨now, .session_deleted, container, some sid, none, none, none⟩).sessionsDir =
          fsErase v.sessionsDir (session_path sid) from rfl]
      rw [fsRead_fsErase_self]
    · exact fsRead_fsErase_self v.sessionsDir (session_path sid)
  · intro err h
    exact delete_session_err v sid container now err h

/-- Witness for C6: deleting a just-created session succeeds, and a delete
on the pristine volume signals NotFound without any change. -/
theorem claim6_delete_permanent_witness :
    (delete_session (create_session emptyVolume "a" "c" 0 none none).1
        "a" "c" 1).2 = Except.ok () ∧
    delete_session emptyVolume "b" "c" 1 =
      (emptyVolume, Except.error SvcErr.notFound) :=
  ⟨((claim6_delete_permanent
        (create_session emptyVolume "a" "c" 0 none none).1 "a" "c" 1).1
      ⟨"a", "unnamed", Payload.emptyObj, 0, 0, 0⟩ (by decide)).1,
    (claim6_delete_permanent emptyVolume "b" "c" 1).2 SvcErr.notFound (by decide)⟩

/-! ### Claim C7: reading the most recent log entries -/

/-- C7 as frozen fails at a requested limit of 0: Python evaluates
`events[-0:]` as the whole list, so the code returns every entry instead
of the most recent zero entries. -/
theorem claim7_limit_zero_counterexample :
    list_events
        ⟨[], some [⟨0, EventKind.startup, "c", none, none, some 1, some 0⟩],
          none, none⟩ 0 =
      [⟨0, EventKind.startup, "c", none, none, some 1, some 0⟩] ∧
    [⟨0, EventKind.startup, "c", none, none, some 1, some 0⟩] ≠ ([] : List Event) := by
  decide

/-- C7 amended: for every requested limit of at least 1, `list_events`
returns exactly the most recent `limit` entries (a suffix of the log of
length `min limit length`, hence all entries when fewer than `limit`
exist); the limit defaults to 50 when unspecified, and a missing log file
yields the empty sequence rather than an error.  (At limit 0 the code
returns all entries, and at negative limits it drops the first entries,
by Python slicing.) -/
theorem claim7_read_recent_amended :
    (∀ (v : Volume) (evs : List Event) (limit : Int), v.events = some evs →
        1 ≤ limit →
        (∃ pre, evs = pre ++ list_events v limit) ∧
        (list_events v limit).length = min limit.toNat evs.length) ∧
    (∀ (v : Volume) (limit : Int), v.events = none → list_events v limit = []) ∧
    (∀ v : Volume, list_events_default v = list_events v 50) := by
  refine ⟨?_, ?_, fun v => rfl⟩
  · intro v evs limit hv hl
    have hk : (-limit) < 0 := by omega
    simp only [list_events, hv, pySliceFrom, if_pos hk]
    constructor
    · exact ⟨evs.take (((evs.length : Int) + (-limit)).toNat),
        (List.take_append_drop _ _).symm⟩
    · rw [List.length_drop]
      omega
  · intro v limit hv
    simp only [list_events, hv]

/-- Witness for the amended C7 on a two-entry log with limit 1. -/
theorem claim7_read_recent_amended_witness :
    (∃ pre, [⟨0, EventKind.startup, "c", none, none, some 1, some 0⟩,
             ⟨1, EventKind.session_created, "c", some "a", some "unnamed", none, none⟩] =
        pre ++ list_events
          ⟨[], some [⟨0, EventKind.startup, "c", none, none, some 1, some 0⟩,
                     ⟨1, EventKind.session_created, "c", some "a", some "unnamed", none, none⟩],
            none, none⟩ 1) ∧
    (list_events
        ⟨[], some [⟨0, EventKind.startup, "c", none, none, some 1, some 0⟩,
                   ⟨1, EventKind.session_created, "c", some "a", some "unnamed", none, none⟩],
          none, none⟩ 1).length = min (Int.toNat 1) 2 :=
  claim7_read_recent_amended.1
    ⟨[], some [⟨0, EventKind.startup, "c", none, none, some 1, some 0⟩,
               ⟨1, EventKind.session_created, "c", some "a", some "unnamed", none, none⟩],
      none, none⟩
    [⟨0, EventKind.startup, "c", none, none, some 1, some 0⟩,
     ⟨1, EventKind.session_created, "c", some "a", some "unnamed", none, none⟩]
    1 rfl (by decide)

/-! ### Claim C2: startup and crash counters -/

theorem load_stats_update (v : Volume) (sid c : String) (n : Nat)
    (na : Option String) (da : Option Payload) :
    load_stats (update_session v sid c n na da).1 = load_stats v := by
  cases h : load_session v sid with
  | error e => rw [update_session_err v sid c n e h]
  | ok sess =>
    rw [update_session_ok v sid c n sess na da h]
    rfl

theorem load_stats_delete (v : Volume) (sid c : String) (n : Nat) :
    load_stats (delete_session v sid c n).1 = load_stats v := by
  cases h : load_session v sid with
  | error e => rw [delete_session_err v sid c n e h]
  | ok sess =>
    rw [delete_session_ok v sid c n sess h]
    rfl

theorem counters_step (v : Volume) (o : Op) :
    (load_stats (step v o)).startup_count =
      (load_stats v).startup_count +
        (match o with | .start _ _ => 1 | _ => 0) ∧
    (load_stats (step v o)).crash_count =
      (load_stats v).crash_count +
        (match o with | .crashOp _ _ => 1 | _ => 0) := by
  cases o with
  | start c n => exact ⟨rfl, rfl⟩
  | crashOp c n => exact ⟨rfl, rfl⟩
  | create sid c n na da => exact ⟨rfl, rfl⟩
  | update sid c n na da =>
    rw [show step v (.update sid c n na da) = (update_session v sid c n na da).1
        from rfl, load_stats_update]
    exact ⟨rfl, rfl⟩
  | delete sid c n =>
    rw [show step v (.delete sid c n) = (delete_session v sid c n).1 from rfl,
      load_stats_delete]
    exact ⟨rfl, rfl⟩

theorem counters_foldl (ops : List Op) : ∀ v : Volume,
    (load_stats (ops.foldl step v)).startup_count =
      (load_stats v).startup_count + countStarts ops ∧
    (load_stats (ops.foldl step v)).crash_count =
      (load_stats v).crash_count + countCrashes ops := by
  induction ops with
  | nil =>
    intro v
    simp [countStarts, countCrashes]
  | cons o ops ih =>
    intro v
    rw [List.foldl_cons]
    obtain ⟨h1, h2⟩ := ih (step v o)
    obtain ⟨g1, g2⟩ := counters_step v o
    constructor
    · rw [h1, g1]
      simp only [countStarts, List.countP_cons]
      cases o <;> (first | omega | (simp; omega) | simp)
    · rw [h2, g2]
      simp only [countCrashes, List.countP_cons]
      cases o <;> (first | omega | (simp; omega) | simp)

/-- C2: starting from an absent counters record (all four fields zero on
first use), after any interleaving of operations containing N process
starts and K triggered crashes, the persisted record shows
`startup_count = N` and `crash_count = K`; moreover the crash operation
persists the incremented `crash_count` and appends a `crash_triggered`
event before the process terminates. -/
theorem claim2_counter_accounting :
    (∀ ops : List Op,
        (load_stats (runOps ops)).startup_count = countStarts ops ∧
        (load_stats (runOps ops)).crash_count = countCrashes ops) ∧
    load_stats emptyVolume =
      { startup_count := 0, crash_count := 0,
        total_sessions := 0, total_requests := 0 } ∧
    (∀ (v : Volume) (c : String) (n : Nat),
        (crash v c n).stats =
          some { load_stats v with crash_count := (load_stats v).crash_count + 1 } ∧
        (crash v c n).events =
          some ((v.events.getD []) ++
            [⟨n, EventKind.crash_triggered, c, none, none, none,
              some ((load_stats v).crash_count + 1)⟩])) := by
  refine ⟨?_, rfl, fun v c n => ⟨rfl, rfl⟩⟩
  intro ops
  obtain ⟨h1, h2⟩ := counters_foldl ops emptyVolume
  rw [runOps]
  constructor
  · rw [h1]
    exact Nat.zero_add _
  · rw [h2]
    exact Nat.zero_add _

/-! ### Claim C8: record write first, then exactly one event -/

theorem load_session_save_session (v : Volume) (sess : Session) :
    load_session (save_session v sess) sess.id = .ok sess := by
  unfold load_session
  rw [fsRead_save_session_self]

/-- C8: every mutating registry operation applies its change to the
record store first and appends exactly one event afterwards: the record
write (`_save_session`) leaves the log untouched, while `_log_event`
leaves the sessions directory untouched and appends exactly one entry;
consequently an identifier taken through create, update, delete yields
`session_created`, `session_updated`, `session_deleted` entries for it in
that order. -/
theorem claim8_record_write_precedes_event :
    (∀ (v : Volume) (sess : Session), (save_session v sess).events = v.events) ∧
    (∀ (v : Volume) (e : Event),
        (log_event v e).sessionsDir = v.sessionsDir ∧
        (log_event v e).events = some ((v.events.getD []) ++ [e])) ∧
    (∀ (v : Volume) (sid c1 c2 c3 : String) (n1 n2 n3 : Nat)
        (na na2 : Option String) (da da2 : Option Payload),
        ((delete_session
            ((update_session
                ((create_session v sid c1 n1 na da).1) sid c2 n2 na2 da2).1)
            sid c3 n3).1).events =
          some ((v.events.getD []) ++
            [⟨n1, EventKind.session_created, c1, some sid,
              some (na.getD "unnamed"), none, none⟩,
             ⟨n2, EventKind.session_updated, c2, some sid, none, none, none⟩,
             ⟨n3, EventKind.session_deleted, c3, some sid, none, none, none⟩])) := by
  refine ⟨fun v sess => rfl, fun v e => ⟨rfl, rfl⟩, ?_⟩
  intro v sid c1 c2 c3 n1 n2 n3 na na2 da da2
  have hload1 : load_session (create_session v sid c1 n1 na da).1 sid =
      .ok (new_session sid n1 na da) :=
    load_session_save_session v (new_session sid n1 na da)
  rw [update_session_ok _ sid c2 n2 _ na2 da2 hload1]
  have hload2 : load_session
      (log_event (save_session (create_session v sid c1 n1 na da).1
          (apply_update (new_session sid n1 na da) n2 na2 da2))
        ⟨n2, .session_updated, c2, some sid, none, none, none⟩) sid =
      .ok (apply_update (new_session sid n1 na da) n2 na2 da2) := by
    have h := load_session_save_session (create_session v sid c1 n1 na da).1
      (apply_update (new_session sid n1 na da) n2 na2 da2)
    rw [apply_update_id] at h
    exact h
  rw [delete_session_ok _ sid c3 n3 _ hload2]
  simp [create_session, log_event, save_session, save_stats, write_stats_tmp,
    new_session]

/-! ### Replay of the event log -/

theorem aliveInLog_append (evs : List Event) (e : Event) (sid : String) :
    aliveInLog (evs ++ [e]) sid =
      cond (isRelevantTo e sid) (isCreatedFor e sid) (aliveInLog evs sid) := by
  unfold aliveInLog
  rw [List.reverse_append]
  cases hr : isRelevantTo e sid with
  | true => simp [List.find?_cons, hr]
  | false => simp [List.find?_cons, hr]

theorem created_not_deleted_append (evs : List Event) (e : Event) (sid : String) :
    (∃ l1 ev l2, evs ++ [e] = l1 ++ ev :: l2 ∧ isCreatedFor ev sid = true ∧
        ∀ e2 ∈ l2, isDeletedFor e2 sid = false) ↔
      (isCreatedFor e sid = true ∨
        ((∃ l1 ev l2, evs = l1 ++ ev :: l2 ∧ isCreatedFor ev sid = true ∧
            ∀ e2 ∈ l2, isDeletedFor e2 sid = false) ∧
          isDeletedFor e sid = false)) := by
  constructor
  · rintro ⟨l1, ev, l2, hsplit, hcr, hnd⟩
    rcases List.eq_nil_or_concat l2 with rfl | ⟨l2x, b, rfl⟩
    · have h2 := List.append_inj' hsplit rfl
      have he : e = ev := by simpa using h2.2
      exact Or.inl (he ▸ hcr)
    · rw [List.concat_eq_append, ← List.cons_append, ← List.append_assoc] at hsplit
      have h2 := List.append_inj' hsplit rfl
      have he : e = b := by simpa using h2.2
      subst he
      refine Or.inr ⟨⟨l1, ev, l2x, h2.1, hcr, ?_⟩, ?_⟩
      · intro x hx
        exact hnd x (by simp [hx])
      · exact hnd e (by simp)
  · rintro (hc | ⟨⟨l1, ev, l2, rfl, hcr, hnd⟩, hde⟩)
    · exact ⟨evs, e, [], rfl, hc, fun x hx => absurd hx (List.not_mem_nil x)⟩
    · refine ⟨l1, ev, l2 ++ [e], by rw [List.append_assoc, List.cons_append], hcr, ?_⟩
      intro x hx
      rcases List.mem_append.mp hx with hx1 | hx2
      · exact hnd x hx1
      · obtain rfl : x = e := by simpa using hx2
        exact hde

theorem aliveInLog_iff_created_not_deleted (evs : List Event) (sid : String) :
    aliveInLog evs sid = true ↔
      ∃ l1 ev l2, evs = l1 ++ ev :: l2 ∧ isCreatedFor ev sid = true ∧
        ∀ e2 ∈ l2, isDeletedFor e2 sid = false := by
  induction evs using List.reverseRecOn with
  | nil =>
    constructor
    · intro h
      exact absurd h (by simp [aliveInLog])
    · rintro ⟨l1, ev, l2, h, _, _⟩
      exact absurd h (by simp)
  | append_singleton evs e ih =>
    rw [aliveInLog_append, created_not_deleted_append]
    cases hr : isRelevantTo e sid with
    | true =>
      rw [Bool.cond_true]
      cases hc : isCreatedFor e sid with
      | true => simp
      | false =>
        have hdel : isDeletedFor e sid = true := by
          have h0 := hr
          simp only [isRelevantTo, hc, Bool.false_or] at h0
          exact h0
        simp [hdel]
    | false =>
      have hcd : isCreatedFor e sid = false ∧ isDeletedFor e sid = false := by
        have h0 := hr
        simp only [isRelevantTo, Bool.or_eq_false_iff] at h0
        exact h0
      rw [Bool.cond_false]
      simp only [hcd.1, hcd.2, Bool.false_eq_true, false_or, and_true]
      exact ih

/-! ### The reachability invariant -/

theorem hasSession_save_session (v : Volume) (sess : Session) (sid : String) :
    hasSession (save_session v sess) sid =
      (if sid = sess.id then true else hasSession v sid) := by
  unfold hasSession
  rw [save_session_dir]
  by_cases h : sid = sess.id
  · subst h
    rw [if_pos rfl, fsRead_fsWrite_self]
    rfl
  · rw [if_neg h, fsRead_fsWrite_ne _ _ (fun hc => h (session_path_inj hc)),
      fsRead_fsErase_ne _ (session_path_ne_tmp_path _ _)]

theorem hasSession_erase (v : Volume) (sid0 sid : String) :
    hasSession { v with sessionsDir := fsErase v.sessionsDir (session_path sid0) } sid =
      (if sid = sid0 then false else hasSession v sid) := by
  unfold hasSession
  by_cases h : sid = sid0
  · subst h
    rw [if_pos rfl]
    show (fsRead (fsErase v.sessionsDir (session_path sid)) (session_path sid)).isSome = false
    rw [fsRead_fsErase_self]
    rfl
  · rw [if_neg h]
    show (fsRead (fsErase v.sessionsDir (session_path sid0)) (session_path sid)).isSome = _
    rw [fsRead_fsErase_ne _ (fun hc => h (session_path_inj hc))]

theorem hasSession_true_of_load_ok {v : Volume} {sid : String} {sess : Session}
    (h : load_session v sid = .ok sess) : hasSession v sid = true := by
  unfold load_session at h
  unfold hasSession
  cases hf : fsRead v.sessionsDir (session_path sid) with
  | none =>
    rw [hf] at h
    exact absurd h (by simp)
  | some fd =>
    rfl

theorem load_session_ok_id {v : Volume} (hd : DirInv v.sessionsDir) {sid : String}
    {sess : Session} (h : load_session v sid = .ok sess) : sess.id = sid := by
  unfold load_session at h
  cases hf : fsRead v.sessionsDir (session_path sid) with
  | none =>
    rw [hf] at h
    exact absurd h (by simp)
  | some fd =>
    rw [hf] at h
    cases fd with
    | corrupt raw => exact absurd h (by simp)
    | complete s =>
      obtain rfl : s = sess := by injection h
      unfold fsRead at hf
      cases hfind : List.find? (fun e => e.1 == session_path sid) v.sessionsDir with
      | none =>
        rw [hfind] at hf
        exact absurd hf (by simp)
      | some en =>
        rw [hfind] at hf
        have hen2 : en.2 = FileData.complete s := by simpa using hf
        have hmem := List.mem_of_find?_eq_some hfind
        have hp := List.find?_some hfind
        obtain ⟨s2, hs2⟩ := hd en hmem
        rw [hs2] at hen2 hp
        have hs2e : s2 = s := by simpa using hen2
        have hpe : session_path s2.id = session_path sid := by
          simpa [beq_iff_eq] using hp
        rw [← hs2e]
        exact session_path_inj hpe

theorem inv_empty : Inv emptyVolume := by
  constructor
  · intro e he
    exact absurd he (List.not_mem_nil e)
  · intro sid
    rfl

theorem inv_step (v : Volume) (o : Op) (h : Inv v) : Inv (step v o) := by
  obtain ⟨hd, ha⟩ := h
  cases o with
  | start c n =>
    refine ⟨hd, fun sid => ?_⟩
    have hh : hasSession (step v (.start c n)) sid = hasSession v sid := rfl
    have hev : (step v (.start c n)).events.getD [] =
        (v.events.getD []) ++
          [⟨n, .startup, c, none, none, some ((load_stats v).startup_count + 1),
            some ((load_stats v).crash_count)⟩] := rfl
    rw [hh, hev, aliveInLog_append]
    have hrel : isRelevantTo
        (⟨n, .startup, c, none, none, some ((load_stats v).startup_count + 1),
          some ((load_stats v).crash_count)⟩ : Event) sid = false := rfl
    rw [hrel, Bool.cond_false]
    exact ha sid
  | crashOp c n =>
    refine ⟨hd, fun sid => ?_⟩
    have hh : hasSession (step v (.crashOp c n)) sid = hasSession v sid := rfl
    have hev : (step v (.crashOp c n)).events.getD [] =
        (v.events.getD []) ++
          [⟨n, .crash_triggered, c, none, none, none,
            some ((load_stats v).crash_count + 1)⟩] := rfl
    rw [hh, hev, aliveInLog_append]
    have hrel : isRelevantTo
        (⟨n, .crash_triggered, c, none, none, none,
          some ((load_stats v).crash_count + 1)⟩ : Event) sid = false := rfl
    rw [hrel, Bool.cond_false]
    exact ha sid
  | create sid0 c n na da =>
    constructor
    · intro e he
      have he2 : e ∈ (save_session v (new_session sid0 n na da)).sessionsDir := he
      rw [save_session_dir] at he2
      rcases mem_fsWrite he2 with rfl | hin
      · exact ⟨new_session sid0 n na da, rfl⟩
      · exact hd e (mem_fsErase hin)
    · intro sid
      have hh : hasSession (step v (.create sid0 c n na da)) sid =
          hasSession (save_session v (new_session sid0 n na da)) sid := rfl
      have hev : (step v (.create sid0 c n na da)).events.getD [] =
          (v.events.getD []) ++
            [⟨n, .session_created, c, some sid0,
              some ((new_session sid0 n na da).name), none, none⟩] := rfl
      rw [hh, hasSession_save_session, hev, aliveInLog_append,
        show (new_session sid0 n na da).id = sid0 from rfl]
      by_cases hss : sid = sid0
      · subst hss
        rw [if_pos rfl]
        have hrel : isRelevantTo
            (⟨n, .session_created, c, some sid,
              some ((new_session sid n na da).name), none, none⟩ : Event) sid = true := by
          simp [isRelevantTo, isCreatedFor]
        rw [hrel, Bool.cond_true]
        simp [isCreatedFor]
      · rw [if_neg hss]
        have h1 : (some sid0 == some sid) = false := by
          rw [beq_eq_false_iff_ne]
          intro hc
          injection hc with hc2
          exact hss hc2.symm
        have hrel : isRelevantTo
            (⟨n, .session_created, c, some sid0,
              some ((new_session sid0 n na da).name), none, none⟩ : Event) sid = false := by
          simp [isRelevantTo, isCreatedFor, isDeletedFor, h1]
        rw [hrel, Bool.cond_false]
        exact ha sid
  | update sid0 c n na da =>
    cases hl : load_session v sid0 with
    | error err =>
      have hstep : step v (.update sid0 c n na da) = v := by
        show (update_session v sid0 c n na da).1 = v
        rw [update_session_err v sid0 c n err hl]
      rw [hstep]
      exact ⟨hd, ha⟩
    | ok sess =>
      have hid : sess.id = sid0 := load_session_ok_id hd hl
      have hstep : step v (.update sid0 c n na da) =
          log_event (save_session v (apply_update sess n na da))
            ⟨n, .session_updated, c, some sid0, none, none, none⟩ := by
        show (update_session v sid0 c n na da).1 = _
        rw [update_session_ok v sid0 c n sess na da hl]
      rw [hstep]
      constructor
      · intro e he
        have he2 : e ∈ (save_session v (apply_update sess n na da)).sessionsDir := he
        rw [save_session_dir] at he2
        rcases mem_fsWrite he2 with rfl | hin
        · exact ⟨apply_update sess n na da, rfl⟩
        · exact hd e (mem_fsErase hin)
      · intro sid
        have hh : hasSession (log_event (save_session v (apply_update sess n na da))
              ⟨n, .session_updated, c, some sid0, none, none, none⟩) sid =
            hasSession (save_session v (apply_update sess n na da)) sid := rfl
        have hev : (log_event (save_session v (apply_update sess n na da))
              ⟨n, .session_updated, c, some sid0, none, none, none⟩).events.getD [] =
            (v.events.getD []) ++
              [⟨n, .session_updated, c, some sid0, none, none, none⟩] := rfl
        rw [hh, hasSession_save_session, hev, aliveInLog_append]
        have hrel : isRelevantTo
            (⟨n, .session_updated, c, some sid0, none, none, none⟩ : Event) sid =
            false := rfl
        rw [hrel, Bool.cond_false]
        by_cases hss : sid = (apply_update sess n na da).id
        · rw [if_pos hss]
          have hsid : sid = sid0 := by rw [hss, apply_update_id, hid]
          rw [hsid, ← ha sid0, hasSession_true_of_load_ok hl]
        · rw [if_neg hss]
          exact ha sid
  | delete sid0 c n =>
    cases hl : load_session v sid0 with
    | error err =>
      have hstep : step v (.delete sid0 c n) = v := by
        show (delete_session v sid0 c n).1 = v
        rw [delete_session_err v sid0 c n err hl]
      rw [hstep]
      exact ⟨hd, ha⟩
    | ok sess =>
      have hstep : step v (.delete sid0 c n) =
          log_event { v with sessionsDir := fsErase v.sessionsDir (session_path sid0) }
            ⟨n, .session_deleted, c, some sid0, none, none, none⟩ := by
        show (delete_session v sid0 c n).1 = _
        rw [delete_session_ok v sid0 c n sess hl]
      rw [hstep]
      constructor
      · intro e he
        exact hd e (mem_fsErase he)
      · intro sid
        have hh : hasSession (log_event
              { v with sessionsDir := fsErase v.sessionsDir (session_path sid0) }
              ⟨n, .session_deleted, c, some sid0, none, none, none⟩) sid =
            hasSession
              { v with sessionsDir := fsErase v.sessionsDir (session_path sid0) }
              sid := rfl
        have hev : (log_event
              { v with sessionsDir := fsErase v.sessionsDir (session_path sid0) }
              ⟨n, .session_deleted, c, some sid0, none, none, none⟩).events.getD [] =
            (v.events.getD []) ++
              [⟨n, .session_deleted, c, some sid0, none, none, none⟩] := rfl
        rw [hh, hasSession_erase, hev, aliveInLog_append]
        by_cases hss : sid = sid0
        · subst hss
          rw [if_pos rfl]
          have hrel : isRelevantTo
              (⟨n, .session_deleted, c, some sid, none, none, none⟩ : Event) sid =
              true := by
            simp [isRelevantTo, isDeletedFor]
          rw [hrel, Bool.cond_true]
          rfl
        · rw [if_neg hss]
          have h1 : (some sid0 == some sid) = false := by
            rw [beq_eq_false_iff_ne]
            intro hc
            injection hc with hc2
            exact hss hc2.symm
          have hrel : isRelevantTo
              (⟨n, .session_deleted, c, some sid0, none, none, none⟩ : Event) sid =
              false := by
            simp [isRelevantTo, isCreatedFor, isDeletedFor, h1]
          rw [hrel, Bool.cond_false]
          exact ha sid

theorem inv_runOps (ops : List Op) : Inv (runOps ops) := by
  have h : ∀ v : Volume, Inv v → Inv (ops.foldl step v) := by
    induction ops with
    | nil => exact fun v hv => hv
    | cons o ops ih =>
      intro v hv
      rw [List.foldl_cons]
      exact ih _ (inv_step v o hv)
  exact h emptyVolume inv_empty

/-! ### Claim C3: disk state equals event-log replay -/

/-- C3: for every sequence of create, update and delete operations,
interleaved arbitrarily with process restarts and crashes, a session
record for `sid` exists on disk exactly when the surviving event log
contains a `session_created` entry for `sid` with no later
`session_deleted` entry for it. -/
theorem claim3_disk_equals_log_replay (ops : List Op) (sid : String) :
    hasSession (runOps ops) sid = true ↔
      ∃ l1 ev l2, ((runOps ops).events.getD []) = l1 ++ ev :: l2 ∧
        isCreatedFor ev sid = true ∧ ∀ e2 ∈ l2, isDeletedFor e2 sid = false := by
  rw [(inv_runOps ops).2 sid]
  exact aliveInLog_iff_created_not_deleted _ sid

/-- Witness for C3 on a concrete run. -/
theorem claim3_disk_equals_log_replay_witness :
    ∃ l1 ev l2,
      ((runOps [Op.start "c" 0, Op.create "a" "c" 1 none none]).events.getD []) =
        l1 ++ ev :: l2 ∧ isCreatedFor ev "a" = true ∧
        ∀ e2 ∈ l2, isDeletedFor e2 "a" = false :=
  (claim3_disk_equals_log_replay [Op.start "c" 0, Op.create "a" "c" 1 none none]
    "a").mp (by decide)

/-! ### Claim C10: listings see only committed records -/

theorem filter_json_fsErase (d : Dir Session) (f : String)
    (hf : isJsonName f = false) :
    (fsErase d f).filter (fun e => isJsonName e.1) =
      d.filter (fun e => isJsonName e.1) := by
  induction d with
  | nil => rfl
  | cons e d ih =>
    by_cases he : e.1 = f
    · have h2 : isJsonName e.1 = false := by rw [he]; exact hf
      simp only [fsErase] at ih ⊢
      simp [List.filter_cons, he, hf, h2, ih]
    · have h1 : (e.1 == f) = false := beq_eq_false_iff_ne.mpr he
      simp only [fsErase] at ih ⊢
      simp [List.filter_cons, h1, ih]

theorem filter_json_write_tmp (d : Dir Session) (sess : Session) :
    (fsWrite d (session_tmp_path sess.id) (FileData.complete sess)).filter
        (fun e => isJsonName e.1) = d.filter (fun e => isJsonName e.1) := by
  show ((session_tmp_path sess.id, FileData.complete sess) ::
      fsErase d (session_tmp_path sess.id)).filter (fun e => isJsonName e.1) = _
  rw [List.filter_cons, if_neg (by simp [isJsonName_session_tmp_path])]
  exact filter_json_fsErase d _ (isJsonName_session_tmp_path sess.id)

theorem list_sessions_write_tmp (v : Volume) (sess : Session) :
    list_sessions (write_session_tmp v sess) = list_sessions v := by
  unfold list_sessions
  rw [show (write_session_tmp v sess).sessionsDir =
      fsWrite v.sessionsDir (session_tmp_path sess.id) (FileData.complete sess)
      from rfl,
    filter_json_write_tmp]

theorem parse_all_complete (entries : List (String × FileData Session))
    (h : ∀ e ∈ entries, ∃ s : Session, e.2 = FileData.complete s) :
    ∃ l, parse_all entries = .ok l ∧
      ∀ s : Session, s ∈ l ↔ ∃ e ∈ entries, e.2 = FileData.complete s := by
  induction entries with
  | nil =>
    refine ⟨[], rfl, ?_⟩
    intro s
    simp
  | cons e es ih =>
    obtain ⟨s0, hs0⟩ := h e (List.mem_cons_self e es)
    obtain ⟨l, hl, hm⟩ := ih (fun x hx => h x (List.mem_cons_of_mem e hx))
    refine ⟨s0 :: l, ?_, ?_⟩
    · show (match e.2 with
        | FileData.complete s => (parse_all es).map (fun l => s :: l)
        | FileData.corrupt _ => Except.error SvcErr.corrupt) = Except.ok (s0 :: l)
      rw [hs0, hl]
      rfl
    · intro s
      constructor
      · intro hs
        rcases List.mem_cons.mp hs with rfl | hsl
        · exact ⟨e, List.mem_cons_self e es, hs0⟩
        · obtain ⟨x, hx, hx2⟩ := (hm s).mp hsl
          exact ⟨x, List.mem_cons_of_mem e hx, hx2⟩
      · rintro ⟨x, hx, hx2⟩
        rcases List.mem_cons.mp hx with rfl | hxes
        · rw [hs0] at hx2
          have hss : s0 = s := by injection hx2
          exact hss ▸ List.mem_cons_self s0 l
        · exact List.mem_cons_of_mem s0 ((hm s).mpr ⟨x, hxes, hx2⟩)

/-- C10: every reachable sessions directory stores each record under the
file name derived from its own identifier (the stored `id` equals the
file name minus the `.json` extension), a listing taken while a
temporary-file write is in flight is unchanged because `.tmp` names never
match the `*.json` glob, and the listing enumerates exactly the committed
session records. -/
theorem claim10_listing_exactly_committed :
    (∀ ops : List Op, DirInv (runOps ops).sessionsDir) ∧
    (∀ (v : Volume) (sess : Session),
        list_sessions (write_session_tmp v sess) = list_sessions v) ∧
    (∀ ops : List Op, ∃ l, list_sessions (runOps ops) = .ok l ∧
        ∀ s : Session, s ∈ l ↔
          (session_path s.id, FileData.complete s) ∈ (runOps ops).sessionsDir) := by
  refine ⟨fun ops => (inv_runOps ops).1, list_sessions_write_tmp, ?_⟩
  intro ops
  have hd := (inv_runOps ops).1
  have hperm : (List.insertionSort (fun a b => a.1 ≤ b.1)
      ((runOps ops).sessionsDir.filter (fun e => isJsonName e.1))).Perm
      ((runOps ops).sessionsDir.filter (fun e => isJsonName e.1)) :=
    List.perm_insertionSort _ _
  have hsub : ∀ e ∈ List.insertionSort (fun a b => a.1 ≤ b.1)
      ((runOps ops).sessionsDir.filter (fun e => isJsonName e.1)),
      ∃ s : Session, e.2 = FileData.complete s := by
    intro e he
    have hin : e ∈ (runOps ops).sessionsDir :=
      List.mem_of_mem_filter (hperm.mem_iff.mp he)
    obtain ⟨s, rfl⟩ := hd e hin
    exact ⟨s, rfl⟩
  obtain ⟨l, hl, hm⟩ := parse_all_complete _ hsub
  refine ⟨l, hl, ?_⟩
  intro s
  rw [hm s]
  constructor
  · rintro ⟨e, he, h2⟩
    have hin : e ∈ (runOps ops).sessionsDir :=
      List.mem_of_mem_filter (hperm.mem_iff.mp he)
    obtain ⟨s2, rfl⟩ := hd e hin
    have hss : s2 = s := by simpa using h2
    subst hss
    exact hin
  · intro hin
    exact ⟨(session_path s.id, FileData.complete s),
      hperm.mem_iff.mpr
        (List.mem_filter.mpr ⟨hin, isJsonName_session_path s.id⟩), rfl⟩

/-- Witness for C10 on a concrete run. -/
theorem claim10_listing_exactly_committed_witness :
    ∃ l, list_sessions (runOps [Op.create "a" "c" 1 none none]) = .ok l ∧
      ∀ s : Session, s ∈ l ↔
        (session_path s.id, FileData.complete s) ∈
          (runOps [Op.create "a" "c" 1 none none]).sessionsDir :=
  claim10_listing_exactly_committed.2.2 [Op.create "a" "c" 1 none none]

end SessionService
